import Mathlib

/-!
Shallow embedding of src/binary_search.hpp.

A range [begin, end) over a random-access sequence is modelled as a function
f : Nat → α giving the element at offset i from begin, together with size =
end - begin.  An iterator into the range is its offset (a Nat); the end
sentinel is rendered as none, a hit at offset i as some i.  The base forms
take the already-key-capturing unary closures exactly as the C++ base forms
do; the keyed and default overloads build those closures from the key as the
corresponding C++ overloads do.

The while loops are embedded as fuel-indexed structural recursions: a loop
returns none when the fuel runs out, so a result that is none for every fuel
witnesses divergence of the C++ loop.  The loops of the variants named by the
safety claim also return the list of offsets at which they dereference the
sequence, partial prefixes included, so that a bound proved for every fuel
covers every dereference the C++ code performs.
-/

/- The sorted sequence [1,3,5,7,9] of the worked examples (element at offset
i; offsets at and past the size 5 are never relevant). -/
def arr5 : Nat → Int
  | 0 => 1
  | 1 => 3
  | 2 => 5
  | 3 => 7
  | _ => 9

/- The sorted sequence [1,2]. -/
def arr2 : Nat → Int
  | 0 => 1
  | _ => 2

/- The sorted array of 1000 integers 0,1,...,999 used by the adaptive
locality scenario: element at offset i is i. -/
def nat_ramp : Nat → Int := fun i => (i : Int)

/- Loop of standard_binary_search_base (lines 113-120): low and high are
iterator offsets, kept as Int because `high = std::prev(mid)` can move high
one position before begin.  `mid = std::next(low, std::distance(low, high) / 2)`. -/
def std_loop {α : Type} (lt : α → Bool) (f : Nat → α) : Nat → Int → Int → Option Int
  | 0, _, _ => none
  | fuel + 1, low, high =>
    if low < high then
      if lt (f (low + (high - low) / 2).toNat) then
        std_loop lt f fuel low (low + (high - low) / 2 - 1)
      else
        std_loop lt f fuel (low + (high - low) / 2) high
    else
      some high

/- Line 121: `return equal_to(*high) ? high : end;`.  A final high before
begin would dereference out of range; that is modelled as a stuck result. -/
def standard_finish {α : Type} (eq : α → Bool) (f : Nat → α) : Option Int → Option (Option Nat)
  | none => none
  | some high => if 0 ≤ high then some (if eq (f high.toNat) then some high.toNat else none) else none

/- standard_binary_search_base, lines 105-122. -/
def standard_binary_search_base {α : Type} (lt eq : α → Bool) (f : Nat → α)
    (size fuel : Nat) : Option (Option Nat) :=
  if size = 0 then some none
  else standard_finish eq f (std_loop lt f fuel 0 ((size : Int) - 1))

/- Default form of standard_binary_search, lines 132-138: natural < and =. -/
def standard_binary_search (f : Nat → Int) (size : Nat) (key : Int) (fuel : Nat) :
    Option (Option Nat) :=
  standard_binary_search_base (fun right => decide (key < right))
    (fun right => decide (key = right)) f size fuel

/- The halving loop shared by boundless_binary_search_base (lines 157-162,
cutoff 1) and doubletapped_binary_search_base (lines 199-204, cutoff 2):
`while (mid > cutoff) { if (!less_than(*(begin + bot + mid/2))) bot += mid++/2;
mid /= 2; }`.  The then branch below is the not-advancing case, the else
branch performs `bot += mid++ / 2; mid /= 2`, i.e. bot + mid/2 and (mid+1)/2. -/
def halving_loop {α : Type} (cutoff : Nat) (lt : α → Bool) (f : Nat → α) :
    Nat → Nat → Nat → List Nat × Option (Nat × Nat)
  | 0, _, _ => ([], none)
  | fuel + 1, bot, mid =>
    if cutoff < mid then
      if lt (f (bot + mid / 2)) then
        ((bot + mid / 2) :: (halving_loop cutoff lt f fuel bot (mid / 2)).1,
         (halving_loop cutoff lt f fuel bot (mid / 2)).2)
      else
        ((bot + mid / 2) :: (halving_loop cutoff lt f fuel (bot + mid / 2) ((mid + 1) / 2)).1,
         (halving_loop cutoff lt f fuel (bot + mid / 2) ((mid + 1) / 2)).2)
    else ([], some (bot, mid))

/- boundless_binary_search_base, lines 148-166.  The final dereference at
offset bot (line 165) is recorded in the access list. -/
def boundless_binary_search_base {α : Type} (lt eq : α → Bool) (f : Nat → α)
    (size fuel : Nat) : List Nat × Option (Option Nat) :=
  if size = 0 then ([], some none)
  else
    match (halving_loop 1 lt f fuel 0 size).2 with
    | none => ((halving_loop 1 lt f fuel 0 size).1, none)
    | some (bot, _) =>
      ((halving_loop 1 lt f fuel 0 size).1 ++ [bot],
       some (if eq (f bot) then some bot else none))

/- Default form of boundless_binary_search, lines 176-182: the source passes
`key >= right` as the less_than closure (and key = right as equal_to). -/
def boundless_binary_search (f : Nat → Int) (size : Nat) (key : Int) (fuel : Nat) :
    List Nat × Option (Option Nat) :=
  boundless_binary_search_base (fun right => decide (key ≥ right))
    (fun right => decide (key = right)) f size fuel

/- Keyed form of boundless_binary_search, lines 168-174: adapts caller
predicates by capturing the key. -/
def boundless_binary_search_keyed {α : Type} (f : Nat → α) (size : Nat) (key : α)
    (less_than equal_to : α → α → Bool) (fuel : Nat) : List Nat × Option (Option Nat) :=
  boundless_binary_search_base (fun right => less_than key right)
    (fun right => equal_to key right) f size fuel

/- The descending tail scan shared by doubletapped (lines 206-211, index
bot + mid after the post-decrement), monobound_quaternary (lines 375-380),
monobound_interpolated (lines 475-480) and adaptive (lines 570-573): test
offsets bot + m - 1 down to bot, returning the first hit. -/
def tail_scan {α : Type} (eq : α → Bool) (f : Nat → α) (bot : Nat) :
    Nat → List Nat × Option Nat
  | 0 => ([], none)
  | m + 1 =>
    if eq (f (bot + m)) then ([bot + m], some (bot + m))
    else ((bot + m) :: (tail_scan eq f bot m).1, (tail_scan eq f bot m).2)

/- The condition of the debug assertion `assert(begin < end)` at line 195 of
doubletapped_binary_search_base, as a function of the range size.  Unlike
every other variant, doubletapped has no `if (begin == end) return end;`
guard in front of it. -/
def doubletapped_assert_holds (size : Nat) : Bool := decide (0 < size)

/- doubletapped_binary_search_base, lines 192-214, release semantics (the
assertion compiled out); note the absence of an empty-range guard. -/
def doubletapped_binary_search_base {α : Type} (lt eq : α → Bool) (f : Nat → α)
    (size fuel : Nat) : List Nat × Option (Option Nat) :=
  match (halving_loop 2 lt f fuel 0 size).2 with
  | none => ((halving_loop 2 lt f fuel 0 size).1, none)
  | some (bot, mid) =>
    ((halving_loop 2 lt f fuel 0 size).1 ++ (tail_scan eq f bot mid).1,
     some (tail_scan eq f bot mid).2)

/- Default form of doubletapped_binary_search, lines 224-230: the source
passes `key >= right` as the less_than closure. -/
def doubletapped_binary_search (f : Nat → Int) (size : Nat) (key : Int) (fuel : Nat) :
    List Nat × Option (Option Nat) :=
  doubletapped_binary_search_base (fun right => decide (key ≥ right))
    (fun right => decide (key = right)) f size fuel

/- Loop of monobound_binary_search_base (lines 250-256): low and high are
iterator offsets (high starts at size); the guard `high > second` is
1 < high; the probe is `*std::next(begin, k)` with k = high / 2 measured
from begin, and `low += k` happens exactly when the probe is not less. -/
def monobound_loop {α : Type} (lt : α → Bool) (f : Nat → α) :
    Nat → Nat → Nat → List Nat × Option (Nat × Nat)
  | 0, _, _ => ([], none)
  | fuel + 1, low, high =>
    if 1 < high then
      if lt (f (high / 2)) then
        ((high / 2) :: (monobound_loop lt f fuel low (high - high / 2)).1,
         (monobound_loop lt f fuel low (high - high / 2)).2)
      else
        ((high / 2) :: (monobound_loop lt f fuel (low + high / 2) (high - high / 2)).1,
         (monobound_loop lt f fuel (low + high / 2) (high - high / 2)).2)
    else ([], some (low, high))

/- monobound_binary_search_base, lines 240-259, with the final dereference at
offset low (line 258) recorded. -/
def monobound_binary_search_base {α : Type} (lt eq : α → Bool) (f : Nat → α)
    (size fuel : Nat) : List Nat × Option (Option Nat) :=
  if size = 0 then ([], some none)
  else
    match (monobound_loop lt f fuel 0 size).2 with
    | none => ((monobound_loop lt f fuel 0 size).1, none)
    | some (low, _) =>
      ((monobound_loop lt f fuel 0 size).1 ++ [low],
       some (if eq (f low) then some low else none))

/- Default form of monobound_binary_search, lines 269-275: natural < and =. -/
def monobound_binary_search (f : Nat → Int) (size : Nat) (key : Int) (fuel : Nat) :
    List Nat × Option (Option Nat) :=
  monobound_binary_search_base (fun right => decide (key < right))
    (fun right => decide (key = right)) f size fuel

/- The `while (top > 3)` narrowing loop shared by tripletapped (lines
297-303), monobound_quaternary (lines 367-373) and monobound_interpolated
(lines 467-473): mid = top / 2, advance bot by mid when the probe at
bot + mid is not less, then top -= mid. -/
def narrow_loop {α : Type} (lt : α → Bool) (f : Nat → α) :
    Nat → Nat → Nat → List Nat × Option (Nat × Nat)
  | 0, _, _ => ([], none)
  | fuel + 1, bot, top =>
    if 3 < top then
      if lt (f (bot + top / 2)) then
        ((bot + top / 2) :: (narrow_loop lt f fuel bot (top - top / 2)).1,
         (narrow_loop lt f fuel bot (top - top / 2)).2)
      else
        ((bot + top / 2) :: (narrow_loop lt f fuel (bot + top / 2) (top - top / 2)).1,
         (narrow_loop lt f fuel (bot + top / 2) (top - top / 2)).2)
    else ([], some (bot, top))

/- The tail loop of tripletapped_binary_search_base, lines 305-310: it is
driven by the OUTER variable mid declared at line 295 (the `auto mid` inside
the narrowing loop at line 299 shadows it), and each iteration dereferences
the constant offset bot + top (line 307).  The caller passes m = 0, the value
the outer mid still has. -/
def tripletapped_tail {α : Type} (eq : α → Bool) (f : Nat → α) (bot top : Nat) :
    Nat → List Nat × Option Nat
  | 0 => ([], none)
  | m + 1 =>
    if eq (f (bot + top)) then ([bot + top], some (bot + top))
    else ((bot + top) :: (tripletapped_tail eq f bot top m).1,
          (tripletapped_tail eq f bot top m).2)

/- tripletapped_binary_search_base, lines 285-313.  The tail runs with the
outer mid, which is still 0 when the narrowing loop exits. -/
def tripletapped_binary_search_base {α : Type} (lt eq : α → Bool) (f : Nat → α)
    (size fuel : Nat) : List Nat × Option (Option Nat) :=
  if size = 0 then ([], some none)
  else
    match (narrow_loop lt f fuel 0 size).2 with
    | none => ((narrow_loop lt f fuel 0 size).1, none)
    | some (bot, top) =>
      ((narrow_loop lt f fuel 0 size).1 ++ (tripletapped_tail eq f bot top 0).1,
       some (tripletapped_tail eq f bot top 0).2)

/- Default form of tripletapped_binary_search, lines 323-329: natural < and =. -/
def tripletapped_binary_search (f : Nat → Int) (size : Nat) (key : Int) (fuel : Nat) :
    List Nat × Option (Option Nat) :=
  tripletapped_binary_search_base (fun right => decide (key < right))
    (fun right => decide (key = right)) f size fuel

/- The quaternary phase of monobound_quaternary_search_base, lines 350-365:
while top >= 65536, mid = top / 4, top -= mid * 3, then two probes eliminate
three quarters of the window. -/
def quat_loop {α : Type} (lt : α → Bool) (f : Nat → α) :
    Nat → Nat → Nat → List Nat × Option (Nat × Nat)
  | 0, _, _ => ([], none)
  | fuel + 1, bot, top =>
    if 65536 ≤ top then
      if lt (f (bot + top / 4 * 2)) then
        if lt (f (bot + top / 4)) then
          ((bot + top / 4 * 2) :: (bot + top / 4) ::
             (quat_loop lt f fuel bot (top - top / 4 * 3)).1,
           (quat_loop lt f fuel bot (top - top / 4 * 3)).2)
        else
          ((bot + top / 4 * 2) :: (bot + top / 4) ::
             (quat_loop lt f fuel (bot + top / 4) (top - top / 4 * 3)).1,
           (quat_loop lt f fuel (bot + top / 4) (top - top / 4 * 3)).2)
      else
        if lt (f (bot + top / 4 * 2 + top / 4)) then
          ((bot + top / 4 * 2) :: (bot + top / 4 * 2 + top / 4) ::
             (quat_loop lt f fuel (bot + top / 4 * 2) (top - top / 4 * 3)).1,
           (quat_loop lt f fuel (bot + top / 4 * 2) (top - top / 4 * 3)).2)
        else
          ((bot + top / 4 * 2) :: (bot + top / 4 * 2 + top / 4) ::
             (quat_loop lt f fuel (bot + top / 4 * 2 + top / 4) (top - top / 4 * 3)).1,
           (quat_loop lt f fuel (bot + top / 4 * 2 + top / 4) (top - top / 4 * 3)).2)
    else ([], some (bot, top))

/- monobound_quaternary_search_base, lines 339-383: quaternary phase, then
the shared narrowing loop, then the descending tail scan. -/
def monobound_quaternary_search_base {α : Type} (lt eq : α → Bool) (f : Nat → α)
    (size fuel : Nat) : List Nat × Option (Option Nat) :=
  if size = 0 then ([], some none)
  else
    match (quat_loop lt f fuel 0 size).2 with
    | none => ((quat_loop lt f fuel 0 size).1, none)
    | some (bot1, top1) =>
      match (narrow_loop lt f fuel bot1 top1).2 with
      | none => ((quat_loop lt f fuel 0 size).1 ++ (narrow_loop lt f fuel bot1 top1).1, none)
      | some (bot, top) =>
        ((quat_loop lt f fuel 0 size).1 ++ (narrow_loop lt f fuel bot1 top1).1 ++
           (tail_scan eq f bot top).1,
         some (tail_scan eq f bot top).2)

/- Default form of monobound_quaternary_search, lines 393-399: natural < and =. -/
def monobound_quaternary_search (f : Nat → Int) (size : Nat) (key : Int) (fuel : Nat) :
    List Nat × Option (Option Nat) :=
  monobound_quaternary_search_base (fun right => decide (key < right))
    (fun right => decide (key = right)) f size fuel

/- The upward gallop shared by monobound_interpolated (lines 434-449) and
adaptive (lines 531-546): if bot + top reaches size, clamp top to size - bot;
otherwise move bot up by top and either bracket (when the probe is less) or
double top.  Returns the final (bot, top). -/
def gallop_up {α : Type} (lt : α → Bool) (f : Nat → α) (size : Nat) :
    Nat → Nat → Nat → Option (Nat × Nat)
  | 0, _, _ => none
  | fuel + 1, bot, top =>
    if size ≤ bot + top then some (bot, size - bot)
    else if lt (f (bot + top)) then some (bot, top)
    else gallop_up lt f size fuel (bot + top) (top * 2)

/- The downward gallop of monobound_interpolated, lines 452-465: when bot
drops below top, the window becomes (0, bot); otherwise bot moves down by top
and the loop breaks when the probe IS less (line 461), else top doubles. -/
def interp_gallop_down {α : Type} (lt : α → Bool) (f : Nat → α) :
    Nat → Nat → Nat → Option (Nat × Nat)
  | 0, _, _ => none
  | fuel + 1, bot, top =>
    if bot < top then some (0, bot)
    else if lt (f (bot - top)) then some (bot - top, top)
    else interp_gallop_down lt f fuel (bot - top) (top * 2)

/- The downward gallop of adaptive_binary_search_base, lines 549-562: same
shape, but the loop breaks when the probe is NOT less (line 558). -/
def adaptive_gallop_down {α : Type} (lt : α → Bool) (f : Nat → α) :
    Nat → Nat → Nat → Option (Nat × Nat)
  | 0, _, _ => none
  | fuel + 1, bot, top =>
    if bot < top then some (0, bot)
    else if lt (f (bot - top)) then adaptive_gallop_down lt f fuel (bot - top) (top * 2)
    else some (bot - top, top)

/- monobound_interpolated_search_base, lines 409-483, with the two missing
dereferences supplied: the source compares the iterator itself at line 425
(`equal_to(max)`) and at line 432 (`less_than(std::next(begin, bot))`), which
does not type-check against element predicates; per the documented intent
both are dereferenced here.  The floating-point interpolation at line 429,
`bot *= (real_type)(key - *min) / (*max - *min)`, is modelled as exact
integer arithmetic truncated toward zero, which agrees with the float
computation at the inputs used below; a negative numerator (impossible under
the natural order, which guards on key < *min first) clamps to 0. -/
def monobound_interpolated_search_base (key : Int) (lt eq : Int → Bool)
    (f : Nat → Int) (size fuel : Nat) : Option (Option Nat) :=
  if size = 0 then some none
  else if lt (f 0) then some none
  else if !(lt (f (size - 1))) then
    some (if eq (f (size - 1)) then some (size - 1) else none)
  else
    match (if !(lt (f ((size - 1) * (key - f 0).toNat / (f (size - 1) - f 0).toNat))) then
             gallop_up lt f size fuel
               ((size - 1) * (key - f 0).toNat / (f (size - 1) - f 0).toNat) 64
           else
             interp_gallop_down lt f fuel
               ((size - 1) * (key - f 0).toNat / (f (size - 1) - f 0).toNat) 64) with
    | none => none
    | some (bot1, top1) =>
      match (narrow_loop lt f fuel bot1 top1).2 with
      | none => none
      | some (bot, top) => some (tail_scan eq f bot top).2

/- Default form of monobound_interpolated_search, lines 493-499: natural <
and =. -/
def monobound_interpolated_search (f : Nat → Int) (size : Nat) (key : Int)
    (fuel : Nat) : Option (Option Nat) :=
  monobound_interpolated_search_base key (fun right => decide (key < right))
    (fun right => decide (key = right)) f size fuel

/- adaptive_binary_search_state, lines 510-513: { size_t i, balance; }. -/
structure adaptive_binary_search_state where
  i : Nat
  balance : Nat
deriving DecidableEq

/- adaptive_binary_search_base, lines 515-575.  The state is read (lines
524, 526) and never written; the fallback branch at line 567 assigns
`top = array_size`, an identifier that is not declared anywhere in the
source, so that branch is modelled as stuck (none).  After the gallop the
source goes straight to the descending tail scan at lines 570-573. -/
def adaptive_binary_search_base {α : Type} (lt eq : α → Bool) (f : Nat → α)
    (size : Nat) (state : adaptive_binary_search_state) (fuel : Nat) :
    Option (Option Nat) × adaptive_binary_search_state :=
  if size = 0 then (some none, state)
  else if state.balance < 32 ∧ 64 < size then
    match (if !(lt (f state.i)) then gallop_up lt f size fuel state.i 32
           else adaptive_gallop_down lt f fuel state.i 32) with
    | none => (none, state)
    | some (bot, top) => (some (tail_scan eq f bot top).2, state)
  else (none, state)

/- Default form of adaptive_binary_search, lines 586-593: natural < and =. -/
def adaptive_binary_search (f : Nat → Int) (size : Nat) (key : Int)
    (state : adaptive_binary_search_state) (fuel : Nat) :
    Option (Option Nat) × adaptive_binary_search_state :=
  adaptive_binary_search_base (fun right => decide (key < right))
    (fun right => decide (key = right)) f size state fuel

/- A sequence of adaptive searches threading the caller-owned state from
call to call, recording each result with the state left behind by that call. -/
def adaptive_run (f : Nat → Int) (size : Nat) (state : adaptive_binary_search_state)
    (fuel : Nat) : List Int → List (Option (Option Nat) × adaptive_binary_search_state)
  | [] => []
  | k :: ks =>
    adaptive_binary_search f size k state fuel ::
      adaptive_run f size (adaptive_binary_search f size k state fuel).2 fuel ks

/-!
Theorems about the claims.
-/

/-- C1: the spec requires that every variant, on a range sorted by less_than,
return an iterator satisfying equal_to whenever some element satisfies it.
The code violates this: on the sorted sequence [1,3,5,7,9] with key 5 (present
at offset 2), tripletapped_binary_search returns the end sentinel, because its
tail loop is driven by the outer mid variable that is still 0 (the mid
declared inside the narrowing loop shadows it). -/
theorem tripletapped_misses_present_key :
    (∀ j < 5, ∀ i < j, arr5 i < arr5 j) ∧ arr5 2 = 5 ∧
      (tripletapped_binary_search arr5 5 5 16).2 = some none := by
  decide

/-- C4: the spec requires the empty range to yield end for every variant with
no dereference, the debug assertion of the doubletapped variant included.  In
the code the doubletapped variant has no empty-range guard, so its
`assert(begin < end)` condition is false on an empty range and the assertion
fires; the release build does return end with no dereference. -/
theorem doubletapped_empty_range_assert_fires :
    doubletapped_assert_holds 0 = false ∧
      doubletapped_binary_search arr5 0 7 1 = ([], some none) := by
  decide

/-- C5: the spec requires "result == end" to agree across variants on every
(sequence, key) pair.  On the sorted sequence [1,3,5,7,9] with key 5 the
monobound quaternary search finds offset 2 while the tripletapped search
returns the end sentinel, so the variants disagree on existence. -/
theorem existence_disagreement_quaternary_tripletapped :
    (monobound_quaternary_search arr5 5 5 16).2 = some (some 2) ∧
      (tripletapped_binary_search arr5 5 5 16).2 = some none := by
  decide

/-- C6: the spec requires the default form search(begin, end, key) to equal
the keyed form instantiated with the natural < and = predicates.  For the
boundless variant the default form passes `key >= right` as less_than while
the base negates its less_than to decide advancement, so the probe decision
is inverted: on [1,2] with key 2 the keyed form with natural < and = finds
offset 1, but the default form returns the end sentinel. -/
theorem boundless_default_differs_from_keyed :
    arr2 1 = 2 ∧
      (boundless_binary_search_keyed arr2 2 2 (fun a b => decide (a < b))
        (fun a b => decide (a = b)) 8).2 = some (some 1) ∧
      (boundless_binary_search arr2 2 2 8).2 = some none := by
  decide

/-- C7: on the model with the two missing dereferences supplied (the literal
source compares the key against an iterator at lines 425 and 432 and does not
type-check for element predicates), monobound_interpolated_search on
[1,3,5,7,9] behaves as the spec states: key 0 returns end with fuel 0, so no
gallop iteration runs; key 9 returns the last offset 4 with fuel 0, directly
from the max check; key 5 returns offset 2. -/
theorem interpolated_edge_cases :
    monobound_interpolated_search arr5 5 0 0 = some none ∧
      monobound_interpolated_search arr5 5 9 0 = some (some 4) ∧
      monobound_interpolated_search arr5 5 5 8 = some (some 2) := by
  decide

/-- C8: the spec says every adaptive call mutates the caller-owned state in
place.  The code never writes to the state: adaptive_binary_search_base reads
state.balance and state.i and returns on every path with the state it was
given, so both fields are unchanged after every call. -/
theorem adaptive_state_unchanged {α : Type} (lt eq : α → Bool) (f : Nat → α)
    (size : Nat) (state : adaptive_binary_search_state) (fuel : Nat) :
    (adaptive_binary_search_base lt eq f size state fuel).2 = state := by
  unfold adaptive_binary_search_base
  split
  · rfl
  · split
    · split <;> rfl
    · rfl

/-- C9: on the sorted array 0,...,999 with the state zero-initialized, the
successive adaptive searches for keys 100,...,110 each return the matching
offset with the state (hence balance 0, below the locality threshold 32, so
the anchored-gallop path is taken) after each call, and the immediately
following search for the far-away key 900 also returns its offset 900. -/
theorem adaptive_locality_sequence :
    adaptive_run nat_ramp 1000 ⟨0, 0⟩ 64
      [100, 101, 102, 103, 104, 105, 106, 107, 108, 109, 110, 900] =
    [(some (some 100), ⟨0, 0⟩), (some (some 101), ⟨0, 0⟩), (some (some 102), ⟨0, 0⟩),
     (some (some 103), ⟨0, 0⟩), (some (some 104), ⟨0, 0⟩), (some (some 105), ⟨0, 0⟩),
     (some (some 106), ⟨0, 0⟩), (some (some 107), ⟨0, 0⟩), (some (some 108), ⟨0, 0⟩),
     (some (some 109), ⟨0, 0⟩), (some (some 110), ⟨0, 0⟩), (some (some 900), ⟨0, 0⟩)] := by
  decide

/- On [1,3,5,7,9] with key 9 the narrowing loop is stuck at (low, high) =
(3, 4): mid = low + (4 - 3) / 2 = low, and 9 < arr5 3 = 7 fails, so
`low = mid` makes no progress. -/
theorem std_loop_key9_fixed :
    ∀ n, std_loop (fun right => decide ((9 : Int) < right)) arr5 n 3 4 = none := by
  intro n
  induction n with
  | zero => rfl
  | succ k ih =>
    have hstep : std_loop (fun right => decide ((9 : Int) < right)) arr5 (k + 1) 3 4 =
        std_loop (fun right => decide ((9 : Int) < right)) arr5 k 3 4 := rfl
    rw [hstep]
    exact ih

/-- C2: the spec says every variant completes in bounded time and in
particular that the standard binary search narrowing loop always makes
progress and exits.  The code computes mid by rounding the distance down
(line 115) while keeping `low = mid` as the non-less branch, so on the sorted
sequence [1,3,5,7,9] with the present key 9 the loop reaches low = 3,
high = 4 and repeats it forever: the fuelled run returns none for every
fuel. -/
theorem standard_binary_search_diverges :
    arr5 4 = 9 ∧ ∀ fuel, standard_binary_search arr5 5 9 fuel = none := by
  refine ⟨rfl, ?_⟩
  intro fuel
  match fuel with
  | 0 => rfl
  | 1 => rfl
  | k + 2 =>
    have hentry : standard_binary_search arr5 5 9 (k + 2) =
        standard_finish (fun right => decide ((9 : Int) = right)) arr5
          (std_loop (fun right => decide ((9 : Int) < right)) arr5 k 3 4) := rfl
    rw [hentry, std_loop_key9_fixed k]
    rfl

/- On [1,3,5,7,9] with key 4 the narrowing loop is stuck at (low, high) =
(0, 1): mid = 0 + (1 - 0) / 2 = 0, and 4 < arr5 0 = 1 fails, so `low = mid`
makes no progress. -/
theorem std_loop_key4_fixed :
    ∀ n, std_loop (fun right => decide ((4 : Int) < right)) arr5 n 0 1 = none := by
  intro n
  induction n with
  | zero => rfl
  | succ k ih =>
    have hstep : std_loop (fun right => decide ((4 : Int) < right)) arr5 (k + 1) 0 1 =
        std_loop (fun right => decide ((4 : Int) < right)) arr5 k 0 1 := rfl
    rw [hstep]
    exact ih

/-- C3: standard binary search over [1,3,5,7,9] does return offset 2 (value
5) for key 5, as the spec states; but for the absent key 4 it does not return
the end sentinel: the narrowing loop reaches low = 0, high = 1 and repeats it
forever, so the fuelled run returns none for every fuel. -/
theorem standard_search_key5_found_key4_diverges :
    standard_binary_search arr5 5 5 8 = some (some 2) ∧
      ∀ fuel, standard_binary_search arr5 5 4 fuel = none := by
  refine ⟨by decide, ?_⟩
  intro fuel
  match fuel with
  | 0 => rfl
  | k + 1 =>
    have hentry : standard_binary_search arr5 5 4 (k + 1) =
        standard_finish (fun right => decide ((4 : Int) = right)) arr5
          (std_loop (fun right => decide ((4 : Int) < right)) arr5 k 0 1) := rfl
    rw [hentry, std_loop_key4_fixed k]
    rfl

/- Every offset dereferenced by the descending tail scan over m candidates
lies below bot + m. -/
theorem tail_scan_probes {α : Type} (eq : α → Bool) (f : Nat → α) (size bot : Nat) :
    ∀ m, bot + m ≤ size → ∀ o ∈ (tail_scan eq f bot m).1, o < size := by
  intro m
  induction m with
  | zero => intro _ o ho; simp [tail_scan] at ho
  | succ k ih =>
    intro h o ho
    by_cases hlt : eq (f (bot + k)) = true
    · simp only [tail_scan, if_pos hlt, List.mem_singleton] at ho
      omega
    · simp only [tail_scan, if_neg hlt, List.mem_cons] at ho
      rcases ho with rfl | ho
      · omega
      · exact ih (by omega) o ho

/- The halving loop of boundless and doubletapped keeps bot + mid ≤ size and
1 ≤ mid when it starts that way (for a positive cutoff), so every probe
offset bot + mid / 2 stays below size, and so does the window it exits with. -/
theorem halving_loop_probes {α : Type} (cutoff : Nat) (lt : α → Bool) (f : Nat → α)
    (size : Nat) (hc : 1 ≤ cutoff) :
    ∀ fuel bot mid, 1 ≤ mid → bot + mid ≤ size →
      (∀ o ∈ (halving_loop cutoff lt f fuel bot mid).1, o < size) ∧
      (∀ b m, (halving_loop cutoff lt f fuel bot mid).2 = some (b, m) →
        1 ≤ m ∧ b + m ≤ size) := by
  intro fuel
  induction fuel with
  | zero =>
    intro bot mid _ _
    exact ⟨fun o ho => by simp [halving_loop] at ho,
           fun b m hbm => by simp [halving_loop] at hbm⟩
  | succ k ih =>
    intro bot mid h1 h2
    by_cases hg : cutoff < mid
    · by_cases hlt : lt (f (bot + mid / 2)) = true
      · have hrec := ih bot (mid / 2) (by omega) (by omega)
        refine ⟨fun o ho => ?_, fun b m hbm => ?_⟩
        · simp only [halving_loop, if_pos hg, if_pos hlt, List.mem_cons] at ho
          rcases ho with rfl | ho
          · omega
          · exact hrec.1 o ho
        · simp only [halving_loop, if_pos hg, if_pos hlt] at hbm
          exact hrec.2 b m hbm
      · have hrec := ih (bot + mid / 2) ((mid + 1) / 2) (by omega) (by omega)
        refine ⟨fun o ho => ?_, fun b m hbm => ?_⟩
        · simp only [halving_loop, if_pos hg, if_neg hlt, List.mem_cons] at ho
          rcases ho with rfl | ho
          · omega
          · exact hrec.1 o ho
        · simp only [halving_loop, if_pos hg, if_neg hlt] at hbm
          exact hrec.2 b m hbm
    · refine ⟨fun o ho => ?_, fun b m hbm => ?_⟩
      · simp only [halving_loop, if_neg hg] at ho
        simp at ho
      · simp only [halving_loop, if_neg hg] at hbm
        cases hbm
        exact ⟨h1, h2⟩

/- The monobound loop keeps low + high ≤ size and 1 ≤ high, so every probe
offset high / 2 stays below size, and so does the window it exits with. -/
theorem monobound_loop_probes {α : Type} (lt : α → Bool) (f : Nat → α) (size : Nat) :
    ∀ fuel low high, 1 ≤ high → low + high ≤ size →
      (∀ o ∈ (monobound_loop lt f fuel low high).1, o < size) ∧
      (∀ l h, (monobound_loop lt f fuel low high).2 = some (l, h) →
        1 ≤ h ∧ l + h ≤ size) := by
  intro fuel
  induction fuel with
  | zero =>
    intro low high _ _
    exact ⟨fun o ho => by simp [monobound_loop] at ho,
           fun l h hlh => by simp [monobound_loop] at hlh⟩
  | succ k ih =>
    intro low high h1 h2
    by_cases hg : 1 < high
    · by_cases hlt : lt (f (high / 2)) = true
      · have hrec := ih low (high - high / 2) (by omega) (by omega)
        refine ⟨fun o ho => ?_, fun l h hlh => ?_⟩
        · simp only [monobound_loop, if_pos hg, if_pos hlt, List.mem_cons] at ho
          rcases ho with rfl | ho
          · omega
          · exact hrec.1 o ho
        · simp only [monobound_loop, if_pos hg, if_pos hlt] at hlh
          exact hrec.2 l h hlh
      · have hrec := ih (low + high / 2) (high - high / 2) (by omega) (by omega)
        refine ⟨fun o ho => ?_, fun l h hlh => ?_⟩
        · simp only [monobound_loop, if_pos hg, if_neg hlt, List.mem_cons] at ho
          rcases ho with rfl | ho
          · omega
          · exact hrec.1 o ho
        · simp only [monobound_loop, if_pos hg, if_neg hlt] at hlh
          exact hrec.2 l h hlh
    · refine ⟨fun o ho => ?_, fun l h hlh => ?_⟩
      · simp only [monobound_loop, if_neg hg] at ho
        simp at ho
      · simp only [monobound_loop, if_neg hg] at hlh
        cases hlh
        exact ⟨h1, h2⟩

/- The shared narrowing loop keeps bot + top ≤ size and 1 ≤ top, so every
probe offset bot + top / 2 stays below size, and so does the window it exits
with. -/
theorem narrow_loop_probes {α : Type} (lt : α → Bool) (f : Nat → α) (size : Nat) :
    ∀ fuel bot top, 1 ≤ top → bot + top ≤ size →
      (∀ o ∈ (narrow_loop lt f fuel bot top).1, o < size) ∧
      (∀ b t, (narrow_loop lt f fuel bot top).2 = some (b, t) →
        1 ≤ t ∧ b + t ≤ size) := by
  intro fuel
  induction fuel with
  | zero =>
    intro bot top _ _
    exact ⟨fun o ho => by simp [narrow_loop] at ho,
           fun b t hbt => by simp [narrow_loop] at hbt⟩
  | succ k ih =>
    intro bot top h1 h2
    by_cases hg : 3 < top
    · by_cases hlt : lt (f (bot + top / 2)) = true
      · have hrec := ih bot (top - top / 2) (by omega) (by omega)
        refine ⟨fun o ho => ?_, fun b t hbt => ?_⟩
        · simp only [narrow_loop, if_pos hg, if_pos hlt, List.mem_cons] at ho
          rcases ho with rfl | ho
          · omega
          · exact hrec.1 o ho
        · simp only [narrow_loop, if_pos hg, if_pos hlt] at hbt
          exact hrec.2 b t hbt
      · have hrec := ih (bot + top / 2) (top - top / 2) (by omega) (by omega)
        refine ⟨fun o ho => ?_, fun b t hbt => ?_⟩
        · simp only [narrow_loop, if_pos hg, if_neg hlt, List.mem_cons] at ho
          rcases ho with rfl | ho
          · omega
          · exact hrec.1 o ho
        · simp only [narrow_loop, if_pos hg, if_neg hlt] at hbt
          exact hrec.2 b t hbt
    · refine ⟨fun o ho => ?_, fun b t hbt => ?_⟩
      · simp only [narrow_loop, if_neg hg] at ho
        simp at ho
      · simp only [narrow_loop, if_neg hg] at hbt
        cases hbt
        exact ⟨h1, h2⟩

/- The quaternary phase keeps bot + top ≤ size and 1 ≤ top, so both probe
offsets of every step stay below size, and so does the window it exits with. -/
theorem quat_loop_probes {α : Type} (lt : α → Bool) (f : Nat → α) (size : Nat) :
    ∀ fuel bot top, 1 ≤ top → bot + top ≤ size →
      (∀ o ∈ (quat_loop lt f fuel bot top).1, o < size) ∧
      (∀ b t, (quat_loop lt f fuel bot top).2 = some (b, t) →
        1 ≤ t ∧ b + t ≤ size) := by
  intro fuel
  induction fuel with
  | zero =>
    intro bot top _ _
    exact ⟨fun o ho => by simp [quat_loop] at ho,
           fun b t hbt => by simp [quat_loop] at hbt⟩
  | succ k ih =>
    intro bot top h1 h2
    by_cases hg : 65536 ≤ top
    · by_cases hlt2 : lt (f (bot + top / 4 * 2)) = true
      · by_cases hlt1 : lt (f (bot + top / 4)) = true
        · have hrec := ih bot (top - top / 4 * 3) (by omega) (by omega)
          refine ⟨fun o ho => ?_, fun b t hbt => ?_⟩
          · simp only [quat_loop, if_pos hg, if_pos hlt2, if_pos hlt1, List.mem_cons] at ho
            rcases ho with rfl | rfl | ho
            · omega
            · omega
            · exact hrec.1 o ho
          · simp only [quat_loop, if_pos hg, if_pos hlt2, if_pos hlt1] at hbt
            exact hrec.2 b t hbt
        · have hrec := ih (bot + top / 4) (top - top / 4 * 3) (by omega) (by omega)
          refine ⟨fun o ho => ?_, fun b t hbt => ?_⟩
          · simp only [quat_loop, if_pos hg, if_pos hlt2, if_neg hlt1, List.mem_cons] at ho
            rcases ho with rfl | rfl | ho
            · omega
            · omega
            · exact hrec.1 o ho
          · simp only [quat_loop, if_pos hg, if_pos hlt2, if_neg hlt1] at hbt
            exact hrec.2 b t hbt
      · by_cases hlt3 : lt (f (bot + top / 4 * 2 + top / 4)) = true
        · have hrec := ih (bot + top / 4 * 2) (top - top / 4 * 3) (by omega) (by omega)
          refine ⟨fun o ho => ?_, fun b t hbt => ?_⟩
          · simp only [quat_loop, if_pos hg, if_neg hlt2, if_pos hlt3, List.mem_cons] at ho
            rcases ho with rfl | rfl | ho
            · omega
            · omega
            · exact hrec.1 o ho
          · simp only [quat_loop, if_pos hg, if_neg hlt2, if_pos hlt3] at hbt
            exact hrec.2 b t hbt
        · have hrec := ih (bot + top / 4 * 2 + top / 4) (top - top / 4 * 3) (by omega) (by omega)
          refine ⟨fun o ho => ?_, fun b t hbt => ?_⟩
          · simp only [quat_loop, if_pos hg, if_neg hlt2, if_neg hlt3, List.mem_cons] at ho
            rcases ho with rfl | rfl | ho
            · omega
            · omega
            · exact hrec.1 o ho
          · simp only [quat_loop, if_pos hg, if_neg hlt2, if_neg hlt3] at hbt
            exact hrec.2 b t hbt
    · refine ⟨fun o ho => ?_, fun b t hbt => ?_⟩
      · simp only [quat_loop, if_neg hg] at ho
        simp at ho
      · simp only [quat_loop, if_neg hg] at hbt
        cases hbt
        exact ⟨h1, h2⟩

/- Assembly: every dereference of the boundless search is below size. -/
theorem boundless_probes_lt {α : Type} (lt eq : α → Bool) (f : Nat → α)
    (size fuel : Nat) (hsz : 0 < size) :
    ∀ o ∈ (boundless_binary_search_base lt eq f size fuel).1, o < size := by
  intro o ho
  have hmain := halving_loop_probes 1 lt f size (by omega) fuel 0 size (by omega) (by omega)
  unfold boundless_binary_search_base at ho
  rw [if_neg (by omega)] at ho
  split at ho
  · exact hmain.1 o ho
  · rename_i bot m heq
    rcases List.mem_append.mp ho with hm | hm
    · exact hmain.1 o hm
    · have hb := hmain.2 bot m heq
      simp only [List.mem_singleton] at hm
      omega

/- Assembly: every dereference of the doubletapped search is below size. -/
theorem doubletapped_probes_lt {α : Type} (lt eq : α → Bool) (f : Nat → α)
    (size fuel : Nat) (hsz : 0 < size) :
    ∀ o ∈ (doubletapped_binary_search_base lt eq f size fuel).1, o < size := by
  intro o ho
  have hmain := halving_loop_probes 2 lt f size (by omega) fuel 0 size (by omega) (by omega)
  unfold doubletapped_binary_search_base at ho
  split at ho
  · exact hmain.1 o ho
  · rename_i bot m heq
    rcases List.mem_append.mp ho with hm | hm
    · exact hmain.1 o hm
    · have hb := hmain.2 bot m heq
      exact tail_scan_probes eq f size bot m (by omega) o hm

/- Assembly: every dereference of the monobound search is below size. -/
theorem monobound_probes_lt {α : Type} (lt eq : α → Bool) (f : Nat → α)
    (size fuel : Nat) (hsz : 0 < size) :
    ∀ o ∈ (monobound_binary_search_base lt eq f size fuel).1, o < size := by
  intro o ho
  have hmain := monobound_loop_probes lt f size fuel 0 size (by omega) (by omega)
  unfold monobound_binary_search_base at ho
  rw [if_neg (by omega)] at ho
  split at ho
  · exact hmain.1 o ho
  · rename_i low h heq
    rcases List.mem_append.mp ho with hm | hm
    · exact hmain.1 o hm
    · have hb := hmain.2 low h heq
      simp only [List.mem_singleton] at hm
      omega

/- Assembly: every dereference of the tripletapped search is below size (its
tail performs none at all, since it runs on the stale outer mid = 0). -/
theorem tripletapped_probes_lt {α : Type} (lt eq : α → Bool) (f : Nat → α)
    (size fuel : Nat) (hsz : 0 < size) :
    ∀ o ∈ (tripletapped_binary_search_base lt eq f size fuel).1, o < size := by
  intro o ho
  have hmain := narrow_loop_probes lt f size fuel 0 size (by omega) (by omega)
  unfold tripletapped_binary_search_base at ho
  rw [if_neg (by omega)] at ho
  split at ho
  · exact hmain.1 o ho
  · rename_i bot top heq
    rcases List.mem_append.mp ho with hm | hm
    · exact hmain.1 o hm
    · simp [tripletapped_tail] at hm
/- Assembly: every dereference of the monobound quaternary search is below
size. -/
theorem quaternary_probes_lt {α : Type} (lt eq : α → Bool) (f : Nat → α)
    (size fuel : Nat) (hsz : 0 < size) :
    ∀ o ∈ (monobound_quaternary_search_base lt eq f size fuel).1, o < size := by
  intro o ho
  have hquat := quat_loop_probes lt f size fuel 0 size (by omega) (by omega)
  unfold monobound_quaternary_search_base at ho
  rw [if_neg (by omega)] at ho
  split at ho
  · exact hquat.1 o ho
  · rename_i bot1 top1 heq1
    have hwin1 := hquat.2 bot1 top1 heq1
    have hnarrow := narrow_loop_probes lt f size fuel bot1 top1 (by omega) (by omega)
    split at ho
    · rcases List.mem_append.mp ho with hm | hm
      · exact hquat.1 o hm
      · exact hnarrow.1 o hm
    · rename_i bot top heq2
      have hwin2 := hnarrow.2 bot top heq2
      rcases List.mem_append.mp ho with hm | hm
      · rcases List.mem_append.mp hm with hm2 | hm2
        · exact hquat.1 o hm2
        · exact hnarrow.1 o hm2
      · exact tail_scan_probes eq f size bot top (by omega) o hm

/-- C10: for every non-empty range and all predicates, every offset at which
the boundless, doubletapped, monobound, tripletapped or monobound-quaternary
search dereferences the sequence, at any fuel, lies strictly below size: the
narrowing loops keep the probe offset inside the window invariant bot + window
less-or-equal size, so no dereference occurs at or past end. -/
theorem probe_offsets_in_range {α : Type} (lt eq : α → Bool) (f : Nat → α)
    (size fuel : Nat) (hsz : 0 < size) :
    (∀ o ∈ (boundless_binary_search_base lt eq f size fuel).1, o < size) ∧
    (∀ o ∈ (doubletapped_binary_search_base lt eq f size fuel).1, o < size) ∧
    (∀ o ∈ (monobound_binary_search_base lt eq f size fuel).1, o < size) ∧
    (∀ o ∈ (tripletapped_binary_search_base lt eq f size fuel).1, o < size) ∧
    (∀ o ∈ (monobound_quaternary_search_base lt eq f size fuel).1, o < size) :=
  ⟨boundless_probes_lt lt eq f size fuel hsz,
   doubletapped_probes_lt lt eq f size fuel hsz,
   monobound_probes_lt lt eq f size fuel hsz,
   tripletapped_probes_lt lt eq f size fuel hsz,
   quaternary_probes_lt lt eq f size fuel hsz⟩

/-- Witness for C10: the bound instantiated on the sequence [1,3,5,7,9] of
size 5 with the natural predicates for key 3 and fuel 10. -/
theorem probe_offsets_in_range_witness :
    (∀ o ∈ (boundless_binary_search_base (fun right => decide ((3 : Int) < right))
        (fun right => decide ((3 : Int) = right)) arr5 5 10).1, o < 5) ∧
    (∀ o ∈ (doubletapped_binary_search_base (fun right => decide ((3 : Int) < right))
        (fun right => decide ((3 : Int) = right)) arr5 5 10).1, o < 5) ∧
    (∀ o ∈ (monobound_binary_search_base (fun right => decide ((3 : Int) < right))
        (fun right => decide ((3 : Int) = right)) arr5 5 10).1, o < 5) ∧
    (∀ o ∈ (tripletapped_binary_search_base (fun right => decide ((3 : Int) < right))
        (fun right => decide ((3 : Int) = right)) arr5 5 10).1, o < 5) ∧
    (∀ o ∈ (monobound_quaternary_search_base (fun right => decide ((3 : Int) < right))
        (fun right => decide ((3 : Int) = right)) arr5 5 10).1, o < 5) :=
  probe_offsets_in_range (fun right => decide ((3 : Int) < right))
    (fun right => decide ((3 : Int) = right)) arr5 5 10 (by decide)
